import Mathlib

/-!
Verification of the smartMeter repository against its specification.

The development shallowly embeds the two source files:
* `src/simulator/simulator.py` — the data generator (`MeterReading.from_measurement`,
  `load_energy_state`, `write_batch`); random draws made by the Python code are
  supplied as explicit oracle inputs, Python floats are modelled as rationals.
* `src/spark/streaming_job.py` — the streaming job.  The job itself is a declarative
  configuration of Spark Structured Streaming (5-minute tumbling windows on
  `event_time`, a watermark, per-device averages, append output mode); the windowed
  aggregation engine that executes it lives inside Spark, not in this repository,
  so the engine is modelled from the specification's component design
  (sections 4.1-4.5) instantiated with the job's configuration.
-/

namespace SmartMeter

/-! ### Simulator: `src/simulator/simulator.py` -/

/-- The random draws consumed by one call of `MeterReading.from_measurement`:
`random.normalvariate(230.0, 3.5)` for voltage, `random.normalvariate(5.0, 1.5)`
for current, `random.uniform(0.85, 0.98)` and `random.uniform(0.05, 0.2)` for the
active/reactive power factors, and `random.normalvariate(50.0, 0.05)` for the
frequency.  The oracle ranges are unconstrained: the claims proved below hold for
arbitrary draws. -/
structure Rand where
  voltageGauss : ℚ
  currentGauss : ℚ
  apFactor : ℚ
  rpFactor : ℚ
  freqGauss : ℚ
deriving DecidableEq

/-- Python's `round(x, ndigits)` modelled on rationals: scale, round to the nearest
integer, unscale.  (Python breaks ties to even; `round` here breaks ties upward.
No claim below depends on the tie-breaking direction.) -/
def roundTo (ndigits : ℕ) (x : ℚ) : ℚ :=
  ((round (x * 10 ^ ndigits) : ℤ) : ℚ) / 10 ^ ndigits

/-- Zero-padding to two digits, as in ISO-8601 date/time components. -/
def pad2 (n : ℕ) : String :=
  if n < 10 then "0" ++ toString n else toString n

/-- Zero-padding to four digits, as in ISO-8601 years. -/
def pad4 (n : ℕ) : String :=
  if n < 10 then "000" ++ toString n
  else if n < 100 then "00" ++ toString n
  else if n < 1000 then "0" ++ toString n
  else toString n

/-- Proleptic-Gregorian civil date (year, month, day) from a count of days since
1970-01-01, the standard era-based algorithm used by civil-time libraries. -/
def civilFromDays (z0 : Int) : Int × ℕ × ℕ :=
  let z := z0 + 719468
  let era := z.fdiv 146097
  let doe := (z - era * 146097).toNat
  let yoe := (doe - doe / 1460 + doe / 36524 - doe / 146096) / 365
  let y := (yoe : Int) + era * 400
  let doy := doe - (365 * yoe + yoe / 4 - yoe / 100)
  let mp := (5 * doy + 2) / 153
  let d := doy - (153 * mp + 2) / 5 + 1
  let m := if mp < 10 then mp + 3 else mp - 9
  (if m ≤ 2 then y + 1 else y, m, d)

/-- `datetime.fromtimestamp(epoch_seconds, tz=timezone.utc).isoformat()` at
whole-second resolution: the ISO-8601 UTC text `YYYY-MM-DDTHH:MM:SS+00:00`
(sub-second digits of the Python float epoch are elided by the model). -/
def isoTimestamp (epochSeconds : Int) : String :=
  let days := epochSeconds.fdiv 86400
  let secs := (epochSeconds - days * 86400).toNat
  let c := civilFromDays days
  pad4 c.1.toNat ++ "-" ++ pad2 c.2.1 ++ "-" ++ pad2 c.2.2 ++ "T" ++
    pad2 (secs / 3600) ++ ":" ++ pad2 (secs % 3600 / 60) ++ ":" ++ pad2 (secs % 60) ++
    "+00:00"

/-- One row of simulator output (`@dataclass MeterReading`), field for field and in
the source's declaration order. -/
structure MeterReading where
  meter_id : String
  timestamp : String
  voltage : ℚ
  current : ℚ
  active_power : ℚ
  reactive_power : ℚ
  frequency : ℚ
  power_factor : ℚ
  total_energy_kwh : ℚ
deriving DecidableEq

/-- `MeterReading.from_measurement(meter_id, epoch_seconds, energy_counter)` with the
five `random` draws passed explicitly as `g`. -/
def MeterReading.from_measurement (meter_id : String) (epoch_seconds : Int)
    (energy_counter : ℚ) (g : Rand) : MeterReading :=
  let timestamp := isoTimestamp epoch_seconds
  let voltage := g.voltageGauss
  let current := max g.currentGauss 0
  let active_power := voltage * current * g.apFactor
  let reactive_power := active_power * g.rpFactor
  let frequency := g.freqGauss
  let power_factor := min (max (active_power / (voltage * current + 1 / 1000000)) 0) 1
  let total_energy_kwh := max (energy_counter + active_power / 3600000) 0
  { meter_id := meter_id
    timestamp := timestamp
    voltage := roundTo 3 voltage
    current := roundTo 3 current
    active_power := roundTo 3 active_power
    reactive_power := roundTo 3 reactive_power
    frequency := roundTo 3 frequency
    power_factor := roundTo 3 power_factor
    total_energy_kwh := roundTo 6 total_energy_kwh }

/-- The CSV header written by `write_batch`: `list(asdict(readings[0]).keys())`,
the `MeterReading` dataclass fields in declaration order. -/
def fieldNames : List String :=
  ["meter_id", "timestamp", "voltage", "current", "active_power",
    "reactive_power", "frequency", "power_factor", "total_energy_kwh"]

/-- Render a numeric cell as text (stand-in for Python's float-to-str formatting;
the claims below depend only on every cell being text). -/
def numText (q : ℚ) : String := toString q

/-- One CSV data row: `writer.writerow(asdict(reading))`, the dataclass fields
serialized as text in declaration order. -/
def serializeReading (r : MeterReading) : List String :=
  [r.meter_id, r.timestamp, numText r.voltage, numText r.current,
    numText r.active_power, numText r.reactive_power, numText r.frequency,
    numText r.power_factor, numText r.total_energy_kwh]

/-- One iteration's random draws in `write_batch`'s generation loop:
`meter_index = random.randrange(len(meter_ids))` plus the draws inside
`from_measurement`. -/
structure BatchChoice where
  meterIndex : ℕ
  rand : Rand

/-- The generation loop of `write_batch`: one reading per choice, at the shared
batch epoch, threading the cumulative `energy` list (`energy[meter_index] =
reading.total_energy_kwh`). -/
def genReadings (meter_ids : List String) (epoch : Int) :
    List ℚ → List BatchChoice → List MeterReading × List ℚ
  | energy, [] => ([], energy)
  | energy, c :: cs =>
    let meter_id := meter_ids.getD c.meterIndex ""
    let reading := MeterReading.from_measurement meter_id epoch
      (energy.getD c.meterIndex 0) c.rand
    let energy1 := energy.set c.meterIndex reading.total_energy_kwh
    let rest := genReadings meter_ids epoch energy1 cs
    (reading :: rest.1, rest.2)

/-- `write_batch(config, meter_ids, energy)` with `batch_size = choices.length`
random draws passed explicitly.  Returns the rows written to the batch file —
`writer.writeheader()` then one `writer.writerow` per reading — and the updated
energy list; `none` models the `IndexError` raised by `asdict(readings[0])` when
the loop produced no readings. -/
def write_batch (meter_ids : List String) (epoch : Int) (energy : List ℚ)
    (choices : List BatchChoice) : Option (List (List String)) × List ℚ :=
  let gen := genReadings meter_ids epoch energy choices
  match gen.1 with
  | [] => (none, gen.2)
  | _ :: _ => (some (fieldNames :: gen.1.map serializeReading), gen.2)

/-- A parsed JSON value, as produced by Python's `json.loads`. -/
inductive Json where
  | null : Json
  | bool (b : Bool) : Json
  | num (q : ℚ) : Json
  | str (s : String) : Json
  | arr (items : List Json) : Json
  | obj (fields : List (String × Json)) : Json

/-- Python's `len` on a JSON value: defined for strings, lists and dicts; a
`TypeError` (modelled as `none`) on numbers, booleans and `None`. -/
def pyLen : Json → Option ℕ
  | Json.str s => some s.length
  | Json.arr l => some l.length
  | Json.obj l => some l.length
  | _ => none

/-- The fallback value of `load_energy_state`: `[0.0 for _ in range(meters)]`. -/
def zeroState (meters : ℕ) : Json :=
  Json.arr (List.replicate meters (Json.num 0))

/-- `load_energy_state(metadata_file, meters)`.  The file system and `json.loads`
are folded into the argument: `none` = the file does not exist, `some none` = the
file exists but its text raises `JSONDecodeError`, `some (some j)` = the text parses
to `j`.  The result is `none` when the Python call raises an uncaught exception
(`len` of an unsized JSON value raises `TypeError`, which the source's
`except json.JSONDecodeError` clause does not catch), and `some v` when it returns
the value `v`. -/
def load_energy_state (file : Option (Option Json)) (meters : ℕ) : Option Json :=
  match file with
  | none => some (zeroState meters)
  | some none => some (zeroState meters)
  | some (some j) =>
    match pyLen j with
    | none => none
    | some l => if l = meters then some j else some (zeroState meters)

/-! ### Windowed aggregation engine

Modelled from the spec: the engine that executes `src/spark/streaming_job.py`'s
query lives inside Spark Structured Streaming and is not part of this repository;
the definitions below follow the specification's component design — Record Parser
(4.1), Watermark Tracker (4.2), Window Assigner (4.3), Aggregate Store (4.4) and
Window Lifecycle Manager (4.5) — parameterised by `window_duration` and
`allowed_lateness` (the job configures both to 5 minutes).  Instants are integers
(seconds); metric values are rationals. -/

/-- Engine configuration: `window_duration` and `allowed_lateness`
(`withWatermark("event_time", "5 minutes")`, `window(col("event_time"), "5 minutes")`). -/
structure EngineConfig where
  window_duration : Int
  allowed_lateness : Int
deriving DecidableEq

/-- A typed measurement record, one per CSV row of the job's input `SCHEMA` with the
`timestamp` column cast to the instant `event_time`. -/
structure MeasurementRecord where
  meter_id : String
  event_time : Int
  voltage : ℚ
  current : ℚ
  active_power : ℚ
  reactive_power : ℚ
  frequency : ℚ
  power_factor : ℚ
  total_energy_kwh : ℚ
deriving DecidableEq

/-- WindowKey: (window start, window end, device identifier). -/
structure WindowKey where
  window_start : Int
  window_end : Int
  device_id : String
deriving DecidableEq

/-- Window Assigner (spec 4.3): `window_start = floor(event_time / window_duration) *
window_duration`, `window_end = window_start + window_duration` (`Int.fdiv` is floor
division). -/
def assignWindow (cfg : EngineConfig) (event_time : Int) (device_id : String) :
    WindowKey :=
  let ws := event_time.fdiv cfg.window_duration * cfg.window_duration
  ⟨ws, ws + cfg.window_duration, device_id⟩

/-- Accumulator (spec 4.4 / checkpoint layout of spec 6): record count plus running
sums of the four averaged metrics. -/
structure Accumulator where
  count : ℕ
  sum_voltage : ℚ
  sum_current : ℚ
  sum_active_power : ℚ
  sum_power_factor : ℚ
deriving DecidableEq

/-- The accumulator created before the first merge. -/
def Accumulator.empty : Accumulator := ⟨0, 0, 0, 0, 0⟩

/-- Merge one record into an accumulator (spec 4.4 `merge`). -/
def Accumulator.merge (a : Accumulator) (r : MeasurementRecord) : Accumulator :=
  ⟨a.count + 1, a.sum_voltage + r.voltage, a.sum_current + r.current,
    a.sum_active_power + r.active_power, a.sum_power_factor + r.power_factor⟩

/-- A finalized window result as written to the sink (spec 6 Sink record). -/
structure FinalizedWindow where
  device_id : String
  window_start : Int
  window_end : Int
  avg_voltage : ℚ
  avg_current : ℚ
  avg_active_power : ℚ
  avg_power_factor : ℚ
deriving DecidableEq

/-- Finalize an accumulator: averages are sums over count (spec 4.4 `finalize`). -/
def finalize (k : WindowKey) (a : Accumulator) : FinalizedWindow :=
  ⟨k.device_id, k.window_start, k.window_end,
    a.sum_voltage / (a.count : ℚ), a.sum_current / (a.count : ℚ),
    a.sum_active_power / (a.count : ℚ), a.sum_power_factor / (a.count : ℚ)⟩

/-- The (window, key) identity of a sink record. -/
def fwKey (f : FinalizedWindow) : WindowKey :=
  ⟨f.window_start, f.window_end, f.device_id⟩

/-- Watermark Tracker `observe` (spec 4.2): update max-seen event time; `none` is
the cold-start state with no event observed yet. -/
def observe : Option Int → Int → Option Int
  | none, t => some t
  | some v, t => some (max v t)

/-- The current watermark: `max(event_time seen) - allowed_lateness`; undefined
(`none`, the "earliest possible instant") before any event is observed. -/
def watermarkOf (cfg : EngineConfig) : Option Int → Option Int
  | none => none
  | some v => some (v - cfg.allowed_lateness)

/-- Whether a window is closed: `window_end <= watermark` (spec 4.4 `closed_keys`). -/
def closedUnder (cfg : EngineConfig) (maxSeen : Option Int) (k : WindowKey) : Bool :=
  match watermarkOf cfg maxSeen with
  | none => false
  | some w => decide (k.window_end ≤ w)

/-- Aggregate Store contents: an association list from WindowKey to Accumulator. -/
def storeKeys (st : List (WindowKey × Accumulator)) : List WindowKey :=
  st.map Prod.fst

/-- Look up the accumulator of a key. -/
def storeFind : List (WindowKey × Accumulator) → WindowKey → Option Accumulator
  | [], _ => none
  | p :: rest, k => if p.1 = k then some p.2 else storeFind rest k

/-- Aggregate Store `merge` (spec 4.4): create the accumulator on first record,
update it otherwise. -/
def storeMerge : List (WindowKey × Accumulator) → WindowKey → MeasurementRecord →
    List (WindowKey × Accumulator)
  | [], k, r => [(k, Accumulator.empty.merge r)]
  | p :: rest, k, r =>
    if p.1 = k then (k, p.2.merge r) :: rest else p :: storeMerge rest k r

/-- Engine state: max observed event time, open accumulators, dropped-late counter. -/
structure EngineState where
  maxSeen : Option Int
  store : List (WindowKey × Accumulator)
  droppedLate : ℕ

/-- Cold start (spec 4.6): no event observed, no open accumulators. -/
def initState : EngineState := ⟨none, [], 0⟩

/-- Process one record (spec 4.5 step 2): observe its event time, compute its
WindowKey, and merge it into the store unless its window is already closed, in
which case it is counted as dropped-late (spec 4.2's drop policy). -/
def mergeRecord (cfg : EngineConfig) (s : EngineState) (r : MeasurementRecord) :
    EngineState :=
  let m := observe s.maxSeen r.event_time
  let k := assignWindow cfg r.event_time r.meter_id
  if closedUnder cfg m k then
    ⟨m, s.store, s.droppedLate + 1⟩
  else
    ⟨m, storeMerge s.store k r, s.droppedLate⟩

/-- One processing cycle per batch (spec 4.5 steps 2-4): merge all records, then
finalize, emit and evict every (window, key) whose window end is at or below the
recomputed watermark.  Returns the new state and the sink writes of the cycle. -/
def processBatch (cfg : EngineConfig) (s : EngineState)
    (batch : List MeasurementRecord) : EngineState × List FinalizedWindow :=
  let s1 := batch.foldl (mergeRecord cfg) s
  let closed := s1.store.filter fun p => closedUnder cfg s1.maxSeen p.1
  let remaining := s1.store.filter fun p => !closedUnder cfg s1.maxSeen p.1
  (⟨s1.maxSeen, remaining, s1.droppedLate⟩, closed.map fun p => finalize p.1 p.2)

/-- Run the engine over a sequence of batches, collecting each cycle's emissions. -/
def runEngine (cfg : EngineConfig) (s : EngineState) :
    List (List MeasurementRecord) → EngineState × List (List FinalizedWindow)
  | [] => (s, [])
  | b :: bs =>
    let cycle := processBatch cfg s b
    let rest := runEngine cfg cycle.1 bs
    (rest.1, cycle.2 :: rest.2)

/-- All (window, key) identities emitted during a run, in emission order. -/
def allEmitted (outs : List (List FinalizedWindow)) : List WindowKey :=
  (outs.map fun out => out.map fwKey).flatten

/-- The engine state after running the given batches from cold start. -/
def stateAfter (cfg : EngineConfig) (batches : List (List MeasurementRecord)) :
    EngineState :=
  (runEngine cfg initState batches).1

/-- Trace invariant relating a set `E` of already-emitted keys to the engine state:
every key of `E` is closed under the current max-seen time and absent from the
store, and the store holds each key at most once. -/
def Inv (cfg : EngineConfig) (E : List WindowKey) (s : EngineState) : Prop :=
  (∀ k ∈ E, closedUnder cfg s.maxSeen k = true) ∧
  (∀ k ∈ E, k ∉ storeKeys s.store) ∧
  (storeKeys s.store).Nodup

/-- The max-seen event time after a sequence of `observe` calls from cold start. -/
def maxSeenOf (ts : List Int) : Option Int := ts.foldl observe none

/-- The watermark after a sequence of `observe` calls from cold start. -/
def watermarkFrom (cfg : EngineConfig) (ts : List Int) : Option Int :=
  watermarkOf cfg (maxSeenOf ts)

/-- Order on optional instants: `none` (cold start, the earliest possible instant)
precedes every instant. -/
def optLe : Option Int → Option Int → Prop
  | none, _ => True
  | some _, none => False
  | some x, some y => x ≤ y

/-- The sum of one metric over a group of records. -/
def metricSum (f : MeasurementRecord → ℚ) (rs : List MeasurementRecord) : ℚ :=
  (rs.map f).sum

/-- The spec's worked example configuration: 5-minute windows, zero lateness. -/
def cfg5 : EngineConfig := ⟨300, 0⟩

/-- A record of the worked example (event time in seconds past midnight; the
ancillary metrics are fixed so the example pins every output field). -/
def exRecord (dev : String) (t : Int) (ap : ℚ) : MeasurementRecord :=
  ⟨dev, t, 230, 5, ap, 10, 50, 19 / 20, 1⟩

/-- First batch of the worked example: device MTR-00001 at 00:00:10, 00:02:00 and
00:04:50 with active power 100, 200 and 300. -/
def exampleBatch1 : List MeasurementRecord :=
  [exRecord "MTR-00001" 10 100, exRecord "MTR-00001" 120 200,
    exRecord "MTR-00001" 290 300]

/-- Second batch of the worked example: one record at 00:05:01 for another device. -/
def exampleBatch2 : List MeasurementRecord :=
  [exRecord "MTR-00002" 301 150]

/-! ### Record Parser

Modelled from the spec (4.1): the repository's row decoding is Spark's CSV reader
configured by `SCHEMA`; the parser below works on pre-tokenised rows where each
field is `none` (missing), `some none` (present but unparsable) or `some (some v)`
(parsed). -/

/-- One raw CSV row of the input schema.  For each field, `none` models a missing
field and `some none` a present but unparsable one. -/
structure RawRow where
  meter_id : Option (Option String)
  timestamp : Option (Option Int)
  voltage : Option (Option ℚ)
  current : Option (Option ℚ)
  active_power : Option (Option ℚ)
  reactive_power : Option (Option ℚ)
  frequency : Option (Option ℚ)
  power_factor : Option (Option ℚ)
  total_energy_kwh : Option (Option ℚ)

/-- Why a row was rejected (spec 4.1: missing field, unparsable number,
unparsable timestamp). -/
inductive RowFault where
  | missingField : RowFault
  | badNumber : RowFault
  | badTimestamp : RowFault
deriving DecidableEq

/-- Decode one text field (no parse step can fail beyond absence). -/
def reqText : Option (Option String) → Except RowFault String
  | none => Except.error RowFault.missingField
  | some none => Except.error RowFault.missingField
  | some (some s) => Except.ok s

/-- Decode one timestamp field. -/
def reqInstant : Option (Option Int) → Except RowFault Int
  | none => Except.error RowFault.missingField
  | some none => Except.error RowFault.badTimestamp
  | some (some t) => Except.ok t

/-- Decode one numeric field. -/
def reqNumber : Option (Option ℚ) → Except RowFault ℚ
  | none => Except.error RowFault.missingField
  | some none => Except.error RowFault.badNumber
  | some (some q) => Except.ok q

/-- Decode one row into a typed record, or report its first fault. -/
def parseRow (row : RawRow) : Except RowFault MeasurementRecord := do
  let meter_id ← reqText row.meter_id
  let event_time ← reqInstant row.timestamp
  let voltage ← reqNumber row.voltage
  let current ← reqNumber row.current
  let active_power ← reqNumber row.active_power
  let reactive_power ← reqNumber row.reactive_power
  let frequency ← reqNumber row.frequency
  let power_factor ← reqNumber row.power_factor
  let total_energy_kwh ← reqNumber row.total_energy_kwh
  Except.ok ⟨meter_id, event_time, voltage, current, active_power, reactive_power,
    frequency, power_factor, total_energy_kwh⟩

/-- Record Parser contract (spec 4.1): decode every row of a batch, skipping and
reporting malformed rows individually, in file order. -/
def parseBatch (rows : List RawRow) : List MeasurementRecord × List RowFault :=
  rows.foldr
    (fun row acc =>
      match parseRow row with
      | Except.ok r => (r :: acc.1, acc.2)
      | Except.error e => (acc.1, e :: acc.2))
    ([], [])

/-- The reported fault of a row decode, if any. -/
def faultOf : Except RowFault MeasurementRecord → Option RowFault
  | Except.error f => some f
  | Except.ok _ => none

/-- A well-formed raw row (all nine fields present and parsable). -/
def goodRow (i : Int) : RawRow :=
  ⟨some (some "MTR-00001"), some (some i), some (some 230), some (some 5),
    some (some 100), some (some 10), some (some 50), some (some (19 / 20)),
    some (some 1)⟩

/-- A raw row whose voltage field is present but not numeric. -/
def badVoltageRow (i : Int) : RawRow :=
  ⟨some (some "MTR-00002"), some (some i), some none, some (some 5),
    some (some 100), some (some 10), some (some 50), some (some (19 / 20)),
    some (some 1)⟩

/-- A ten-row batch with one malformed row (non-numeric voltage). -/
def exampleBatch : List RawRow :=
  [goodRow 0, goodRow 30, goodRow 60, goodRow 90, badVoltageRow 120,
    goodRow 150, goodRow 180, goodRow 210, goodRow 240, goodRow 270]

/-! ### Helper lemmas -/

theorem roundTo_nonneg (n : ℕ) (x : ℚ) (hx : 0 ≤ x) : 0 ≤ roundTo n x := by
  unfold roundTo
  have h10 : (0 : ℚ) < 10 ^ n := by positivity
  have h1 : (0 : ℤ) ≤ round (x * 10 ^ n) := by
    rw [round_eq]
    have : ((0 : ℤ) : ℚ) + 1 / 2 ≤ x * 10 ^ n + 1 / 2 := by
      have : (0 : ℚ) ≤ x * 10 ^ n := by positivity
      linarith
    calc (0 : ℤ) = ⌊((0 : ℤ) : ℚ) + 1 / 2⌋ := by norm_num
      _ ≤ ⌊x * 10 ^ n + 1 / 2⌋ := Int.floor_le_floor this
  have : (0 : ℚ) ≤ ((round (x * 10 ^ n) : ℤ) : ℚ) := by exact_mod_cast h1
  positivity

theorem roundTo_le_one (n : ℕ) (x : ℚ) (hx : x ≤ 1) : roundTo n x ≤ 1 := by
  unfold roundTo
  have h10 : (0 : ℚ) < 10 ^ n := by positivity
  have h1 : round (x * 10 ^ n) ≤ (10 ^ n : ℤ) := by
    rw [round_eq]
    have hle : x * 10 ^ n + 1 / 2 ≤ ((10 ^ n : ℤ) : ℚ) + 1 / 2 := by
      push_cast
      nlinarith
    calc ⌊x * 10 ^ n + 1 / 2⌋ ≤ ⌊((10 ^ n : ℤ) : ℚ) + 1 / 2⌋ := Int.floor_le_floor hle
      _ = 10 ^ n + ⌊(1 : ℚ) / 2⌋ := Int.floor_int_add _ _
      _ = 10 ^ n := by norm_num
  rw [div_le_one h10]
  exact_mod_cast h1

/-! ### Claim C10 -/

/-- Claim C10: every reading produced by `MeterReading.from_measurement` — for any
meter id, epoch, energy counter and random draws — satisfies
`0.0 <= power_factor <= 1.0` and `total_energy_kwh >= 0.0`. -/
theorem C10_from_measurement_bounds (meter_id : String) (epoch_seconds : Int)
    (energy_counter : ℚ) (g : Rand) :
    0 ≤ (MeterReading.from_measurement meter_id epoch_seconds energy_counter g).power_factor ∧
    (MeterReading.from_measurement meter_id epoch_seconds energy_counter g).power_factor ≤ 1 ∧
    0 ≤ (MeterReading.from_measurement meter_id epoch_seconds energy_counter g).total_energy_kwh := by
  unfold MeterReading.from_measurement
  refine ⟨roundTo_nonneg _ _ ?_, roundTo_le_one _ _ ?_, roundTo_nonneg _ _ ?_⟩
  · exact le_min (le_max_right _ _) zero_le_one
  · exact min_le_right _ _
  · exact le_max_right _ _

/-! ### Claim C9 -/

/-- Claim C9 as stated is false: `load_energy_state` trusts `len(state) == meters`
without checking that the parsed JSON is a list of floats.  A metadata file holding
the JSON string `"ab"` with `meters = 2` is returned as-is (a string, not a list of
floats), and a file holding the JSON number `5` raises an uncaught `TypeError`
(modelled as `none`) instead of returning zeros. -/
theorem C9_counterexample :
    load_energy_state (some (some (Json.str "ab"))) 2 = some (Json.str "ab") ∧
    load_energy_state (some (some (Json.num 5))) 3 = none := by
  constructor <;> rfl

/-- Claim C9, amended: `load_energy_state` returns the `meters`-element zero list
when the metadata file is absent, contains invalid JSON, or holds a sized JSON
value (list, string or dict) whose length differs from `meters`; a sized JSON value
of length exactly `meters` is returned unchanged, whether or not it is a list of
floats; valid JSON without a length (number, boolean, null) raises `TypeError`. -/
theorem C9_load_energy_state_amended (n : ℕ) :
    load_energy_state none n = some (zeroState n) ∧
    load_energy_state (some none) n = some (zeroState n) ∧
    (∀ j l, pyLen j = some l → l ≠ n →
      load_energy_state (some (some j)) n = some (zeroState n)) ∧
    (∀ j, pyLen j = some n → load_energy_state (some (some j)) n = some j) ∧
    (∀ j, pyLen j = none → load_energy_state (some (some j)) n = none) ∧
    zeroState n = Json.arr (List.replicate n (Json.num 0)) ∧
    (List.replicate n (Json.num 0)).length = n := by
  refine ⟨rfl, rfl, ?_, ?_, ?_, rfl, List.length_replicate n _⟩
  · intro j l hj hl
    simp [load_energy_state, hj, hl]
  · intro j hj
    simp [load_energy_state, hj]
  · intro j hj
    simp [load_energy_state, hj]

/-- Closed instance of the amended C9: a two-element metadata list with two meters
is returned unchanged, and a stale three-element list with two meters resets to
zeros. -/
theorem C9_load_energy_state_amended_witness :
    load_energy_state (some (some (Json.arr [Json.num 7, Json.num 8]))) 2 =
      some (Json.arr [Json.num 7, Json.num 8]) ∧
    load_energy_state (some (some (Json.arr [Json.num 7, Json.num 8, Json.num 9]))) 2 =
      some (zeroState 2) :=
  ⟨(C9_load_energy_state_amended 2).2.2.2.1 (Json.arr [Json.num 7, Json.num 8]) rfl,
    (C9_load_energy_state_amended 2).2.2.1 (Json.arr [Json.num 7, Json.num 8, Json.num 9]) 3
      rfl (by decide)⟩

/-! ### Claim C2 -/

/-- Claim C2: window assignment is deterministic, with
`window_start = floor(t / window_duration) * window_duration` and
`window_end = window_start + window_duration`; the assigned window contains `t` as
`window_start <= t < window_end`, and it is the only epoch-aligned tumbling window
of that duration for that device containing `t` (so a boundary event time belongs
to the window it starts). -/
theorem C2_window_assignment (cfg : EngineConfig) (t : Int) (dev : String)
    (hwd : 0 < cfg.window_duration) :
    (assignWindow cfg t dev).device_id = dev ∧
    (assignWindow cfg t dev).window_start =
      t.fdiv cfg.window_duration * cfg.window_duration ∧
    (assignWindow cfg t dev).window_end =
      (assignWindow cfg t dev).window_start + cfg.window_duration ∧
    (assignWindow cfg t dev).window_start ≤ t ∧
    t < (assignWindow cfg t dev).window_end ∧
    ∀ k' : WindowKey, (∃ n : Int, k'.window_start = n * cfg.window_duration) →
      k'.window_end = k'.window_start + cfg.window_duration →
      k'.device_id = dev → k'.window_start ≤ t → t < k'.window_end →
      k' = assignWindow cfg t dev := by
  have hne : cfg.window_duration ≠ 0 := ne_of_gt hwd
  have hfd : t.fdiv cfg.window_duration = t / cfg.window_duration :=
    Int.fdiv_eq_ediv t (le_of_lt hwd)
  have hlow : t / cfg.window_duration * cfg.window_duration ≤ t :=
    Int.ediv_mul_le t hne
  have hhigh : t < (t / cfg.window_duration + 1) * cfg.window_duration :=
    Int.lt_ediv_add_one_mul_self t hwd
  refine ⟨rfl, rfl, rfl, ?_, ?_, ?_⟩
  · simpa [assignWindow, hfd] using hlow
  · simp only [assignWindow, hfd]
    nlinarith [hhigh]
  · rintro ⟨ws, we, d⟩ ⟨n, hn⟩ hend hdev hle hlt
    simp only at hn hend hdev hle hlt
    subst hn hend hdev
    have h1 : n ≤ t / cfg.window_duration :=
      (Int.le_ediv_iff_mul_le hwd).2 hle
    have h2 : t / cfg.window_duration ≤ n := by
      by_contra hc
      push_neg at hc
      have : n + 1 ≤ t / cfg.window_duration := Int.lt_iff_add_one_le.1 hc
      have : (n + 1) * cfg.window_duration ≤ t :=
        (Int.le_ediv_iff_mul_le hwd).1 this
      nlinarith
    have hn : n = t / cfg.window_duration := le_antisymm h1 h2
    simp [assignWindow, hfd, hn]

/-- Closed instance of C2: with 5-minute windows and the boundary event time 300,
the record belongs to the window it starts. -/
theorem C2_window_assignment_witness :
    (assignWindow ⟨300, 0⟩ 300 "MTR-00001").window_start ≤ 300 ∧
    300 < (assignWindow ⟨300, 0⟩ 300 "MTR-00001").window_end :=
  ⟨(C2_window_assignment ⟨300, 0⟩ 300 "MTR-00001" (by decide)).2.2.2.1,
    (C2_window_assignment ⟨300, 0⟩ 300 "MTR-00001" (by decide)).2.2.2.2.1⟩

/-! ### Claim C3 -/

theorem optLe_refl (a : Option Int) : optLe a a := by
  cases a <;> simp [optLe]

theorem optLe_trans {a b c : Option Int} (h1 : optLe a b) (h2 : optLe b c) :
    optLe a c := by
  cases a <;> cases b <;> cases c <;> simp_all [optLe] <;> omega

theorem optLe_observe (m : Option Int) (t : Int) : optLe m (observe m t) := by
  cases m <;> simp [optLe, observe]

theorem optLe_foldl_observe (ts : List Int) (m : Option Int) :
    optLe m (ts.foldl observe m) := by
  induction ts generalizing m with
  | nil => exact optLe_refl m
  | cons t rest ih => exact optLe_trans (optLe_observe m t) (ih (observe m t))

theorem watermarkOf_mono (cfg : EngineConfig) {m m' : Option Int}
    (h : optLe m m') : optLe (watermarkOf cfg m) (watermarkOf cfg m') := by
  cases m <;> cases m' <;> simp_all [optLe, watermarkOf] <;> omega

theorem foldl_observe_from_some (ts : List Int) (v : Int) :
    ts.foldl observe (some v) = some (ts.foldl max v) := by
  induction ts generalizing v with
  | nil => rfl
  | cons t rest ih => simpa [observe] using ih (max v t)

theorem le_foldl_max (ts : List Int) (v : Int) :
    v ≤ ts.foldl max v ∧ ∀ t ∈ ts, t ≤ ts.foldl max v := by
  induction ts generalizing v with
  | nil => simp
  | cons t rest ih =>
    simp only [List.foldl_cons]
    refine ⟨le_trans (le_max_left v t) (ih (max v t)).1, ?_⟩
    intro u hu
    rcases List.mem_cons.1 hu with rfl | h
    · exact le_trans (le_max_right v u) (ih (max v u)).1
    · exact (ih (max v t)).2 u h

theorem foldl_max_mem (ts : List Int) (v : Int) :
    ts.foldl max v = v ∨ ts.foldl max v ∈ ts := by
  induction ts generalizing v with
  | nil => simp
  | cons t rest ih =>
    simp only [List.foldl_cons]
    rcases ih (max v t) with h | h
    · rcases max_choice v t with hm | hm
      · left; rw [h, hm]
      · right; rw [h, hm]; exact List.mem_cons_self t rest
    · right; exact List.mem_cons_of_mem t h

theorem mergeRecord_maxSeen (cfg : EngineConfig) (s : EngineState)
    (r : MeasurementRecord) :
    (mergeRecord cfg s r).maxSeen = observe s.maxSeen r.event_time := by
  simp only [mergeRecord]
  split <;> rfl

theorem foldl_mergeRecord_maxSeen (cfg : EngineConfig) (batch : List MeasurementRecord)
    (s : EngineState) :
    (batch.foldl (mergeRecord cfg) s).maxSeen =
      (batch.map (fun r => r.event_time)).foldl observe s.maxSeen := by
  induction batch generalizing s with
  | nil => rfl
  | cons r rest ih =>
    simp only [List.foldl, List.map]
    rw [ih, mergeRecord_maxSeen]

/-- Claim C3: after any non-empty sequence of observed event times the watermark
equals the maximum event time seen so far minus the allowed lateness; the watermark
never decreases when further event times are observed; and the engine's max-seen
state over a batch is exactly the fold of `observe` over the batch's event times. -/
theorem C3_watermark (cfg : EngineConfig) (ts more : List Int) :
    (ts ≠ [] → ∃ m, maxSeenOf ts = some m ∧ m ∈ ts ∧ (∀ t ∈ ts, t ≤ m) ∧
      watermarkFrom cfg ts = some (m - cfg.allowed_lateness)) ∧
    optLe (watermarkFrom cfg ts) (watermarkFrom cfg (ts ++ more)) ∧
    ∀ (s : EngineState) (batch : List MeasurementRecord),
      (batch.foldl (mergeRecord cfg) s).maxSeen =
        (batch.map (fun r => r.event_time)).foldl observe s.maxSeen := by
  refine ⟨?_, ?_, fun s batch => foldl_mergeRecord_maxSeen cfg batch s⟩
  · intro hne
    obtain ⟨t, rest, rfl⟩ := List.exists_cons_of_ne_nil hne
    refine ⟨rest.foldl max t, ?_, ?_, ?_, ?_⟩
    · simp [maxSeenOf, observe, foldl_observe_from_some]
    · rcases foldl_max_mem rest t with h | h
      · simp [h]
      · exact List.mem_cons_of_mem t h
    · intro u hu
      rcases List.mem_cons.1 hu with h | h
      · exact h ▸ (le_foldl_max rest t).1
      · exact (le_foldl_max rest t).2 u h
    · simp [watermarkFrom, maxSeenOf, observe, foldl_observe_from_some, watermarkOf]
  · have h1 : maxSeenOf (ts ++ more) = more.foldl observe (maxSeenOf ts) := by
      simp [maxSeenOf, List.foldl_append]
    rw [watermarkFrom, watermarkFrom, h1]
    exact watermarkOf_mono cfg (optLe_foldl_observe more (maxSeenOf ts))

/-- Closed instance of C3: observing 10 then 320 with 5-minute lateness puts the
watermark at 20, and the later observation of 900 does not decrease it. -/
theorem C3_watermark_witness :
    (∃ m, maxSeenOf [10, 320] = some m ∧ m ∈ [10, 320] ∧
      (∀ t ∈ [10, 320], t ≤ m) ∧
      watermarkFrom ⟨300, 300⟩ [10, 320] = some (m - 300)) ∧
    optLe (watermarkFrom ⟨300, 300⟩ [10, 320])
      (watermarkFrom ⟨300, 300⟩ ([10, 320] ++ [900])) :=
  ⟨(C3_watermark ⟨300, 300⟩ [10, 320] [900]).1 (by decide),
    (C3_watermark ⟨300, 300⟩ [10, 320] [900]).2.1⟩

/-! ### Claim C4 -/

theorem foldl_merge_characterization (rs : List MeasurementRecord) (a : Accumulator) :
    rs.foldl Accumulator.merge a =
      ⟨a.count + rs.length,
        a.sum_voltage + metricSum (fun r => r.voltage) rs,
        a.sum_current + metricSum (fun r => r.current) rs,
        a.sum_active_power + metricSum (fun r => r.active_power) rs,
        a.sum_power_factor + metricSum (fun r => r.power_factor) rs⟩ := by
  induction rs generalizing a with
  | nil => simp [metricSum]
  | cons r rest ih =>
    simp only [List.foldl_cons, ih, Accumulator.merge, metricSum, List.map_cons,
      List.sum_cons, List.length_cons, Accumulator.mk.injEq]
    refine ⟨by omega, by ring, by ring, by ring, by ring⟩

/-- Claim C4: a finalized result carries exactly the device identifier, the window
bounds, and the four averages, each average being the metric's sum over the group's
merged records divided by the group's record count; and every record a processing
cycle emits is `finalize` of a closed accumulator of the store. -/
theorem C4_finalize_fields :
    (∀ (k : WindowKey) (rs : List MeasurementRecord),
      finalize k (rs.foldl Accumulator.merge Accumulator.empty) =
        ⟨k.device_id, k.window_start, k.window_end,
          metricSum (fun r => r.voltage) rs / (rs.length : ℚ),
          metricSum (fun r => r.current) rs / (rs.length : ℚ),
          metricSum (fun r => r.active_power) rs / (rs.length : ℚ),
          metricSum (fun r => r.power_factor) rs / (rs.length : ℚ)⟩) ∧
    ∀ (cfg : EngineConfig) (s : EngineState) (batch : List MeasurementRecord)
      (f : FinalizedWindow), f ∈ (processBatch cfg s batch).2 →
      ∃ p : WindowKey × Accumulator,
        p ∈ (batch.foldl (mergeRecord cfg) s).store ∧
        closedUnder cfg (batch.foldl (mergeRecord cfg) s).maxSeen p.1 = true ∧
        f = finalize p.1 p.2 := by
  constructor
  · intro k rs
    rw [foldl_merge_characterization rs Accumulator.empty]
    simp [finalize, Accumulator.empty]
  · intro cfg s batch f hf
    simp only [processBatch, List.mem_map] at hf
    obtain ⟨p, hp, hfp⟩ := hf
    exact ⟨p, (List.mem_filter.1 hp).1, (List.mem_filter.1 hp).2, hfp.symm⟩

/-- Closed instance of C4's emission clause: a cycle with no new records emits the
single closed accumulator held in the store. -/
theorem C4_finalize_fields_witness :
    ∃ p : WindowKey × Accumulator,
      p ∈ (([] : List MeasurementRecord).foldl (mergeRecord ⟨300, 0⟩)
        ⟨some 1000, [(⟨0, 300, "MTR-00001"⟩, ⟨2, 460, 10, 300, 19 / 10⟩)], 0⟩).store ∧
      closedUnder ⟨300, 0⟩ (([] : List MeasurementRecord).foldl (mergeRecord ⟨300, 0⟩)
        ⟨some 1000, [(⟨0, 300, "MTR-00001"⟩, ⟨2, 460, 10, 300, 19 / 10⟩)], 0⟩).maxSeen p.1 = true ∧
      finalize ⟨0, 300, "MTR-00001"⟩ ⟨2, 460, 10, 300, 19 / 10⟩ = finalize p.1 p.2 :=
  C4_finalize_fields.2 ⟨300, 0⟩
    ⟨some 1000, [(⟨0, 300, "MTR-00001"⟩, ⟨2, 460, 10, 300, 19 / 10⟩)], 0⟩ []
    (finalize ⟨0, 300, "MTR-00001"⟩ ⟨2, 460, 10, 300, 19 / 10⟩)
    (by simp [processBatch, closedUnder, watermarkOf])

/-! ### Claim C6 -/

theorem parseBatch_cons (row : RawRow) (rest : List RawRow) :
    parseBatch (row :: rest) =
      match parseRow row with
      | Except.ok r => (r :: (parseBatch rest).1, (parseBatch rest).2)
      | Except.error e => ((parseBatch rest).1, e :: (parseBatch rest).2) := by
  cases h : parseRow row <;> simp [parseBatch, h]

theorem parseBatch_spec (rows : List RawRow) :
    (parseBatch rows).1 = rows.filterMap (fun row => (parseRow row).toOption) ∧
    (parseBatch rows).2 = rows.filterMap (fun row => faultOf (parseRow row)) ∧
    (parseBatch rows).1.length + (parseBatch rows).2.length = rows.length := by
  induction rows with
  | nil => simp [parseBatch]
  | cons row rest ih =>
    obtain ⟨ih1, ih2, ih3⟩ := ih
    rw [parseBatch_cons]
    cases h : parseRow row with
    | ok r =>
      have hf : (parseRow row).toOption = some r := by rw [h]; rfl
      have hg : faultOf (parseRow row) = none := by rw [h]; rfl
      refine ⟨?_, ?_, ?_⟩
      · rw [List.filterMap_cons, hf, ih1]
      · rw [List.filterMap_cons, hg, ih2]
      · simp only [List.length_cons]
        omega
    | error e =>
      have hf : (parseRow row).toOption = none := by rw [h]; rfl
      have hg : faultOf (parseRow row) = some e := by rw [h]; rfl
      refine ⟨?_, ?_, ?_⟩
      · rw [List.filterMap_cons, hf, ih1]
      · rw [List.filterMap_cons, hg, ih2]
      · simp only [List.length_cons]
        omega

/-- Claim C6: parsing never fails a whole batch — the decoded records are exactly
the valid rows (in file order), the reported faults are exactly the malformed rows,
every row lands in exactly one of the two output sequences, and the ten-row batch
with a single non-numeric voltage yields 9 records and 1 ParseError. -/
theorem C6_parse_batch (rows : List RawRow) :
    (parseBatch rows).1 = rows.filterMap (fun row => (parseRow row).toOption) ∧
    (parseBatch rows).2 = rows.filterMap (fun row => faultOf (parseRow row)) ∧
    (parseBatch rows).1.length + (parseBatch rows).2.length = rows.length ∧
    (parseBatch exampleBatch).1.length = 9 ∧
    (parseBatch exampleBatch).2 = [RowFault.badNumber] := by
  obtain ⟨h1, h2, h3⟩ := parseBatch_spec rows
  exact ⟨h1, h2, h3, rfl, rfl⟩

/-! ### Claim C8 -/

theorem genReadings_length (meter_ids : List String) (epoch : Int) :
    ∀ (choices : List BatchChoice) (energy : List ℚ),
      (genReadings meter_ids epoch energy choices).1.length = choices.length := by
  intro choices
  induction choices with
  | nil => intro energy; rfl
  | cons c cs ih =>
    intro energy
    simp only [genReadings, List.length_cons]
    rw [ih]

/-- Claim C8: every batch file `write_batch` produces starts with the single header
row and continues with exactly one serialized measurement per generated reading;
each data row is the nine fields `meter_id, timestamp, voltage, current,
active_power, reactive_power, frequency, power_factor, total_energy_kwh`, as text
and in that order (shown by zipping each row against the header). -/
theorem C8_write_batch_rows (meter_ids : List String) (epoch : Int) (energy : List ℚ)
    (choices : List BatchChoice) (h : choices ≠ []) :
    (write_batch meter_ids epoch energy choices).1 =
      some (fieldNames ::
        ((genReadings meter_ids epoch energy choices).1).map serializeReading) ∧
    (genReadings meter_ids epoch energy choices).1.length = choices.length ∧
    ∀ r : MeterReading, fieldNames.zip (serializeReading r) =
      [("meter_id", r.meter_id), ("timestamp", r.timestamp),
        ("voltage", numText r.voltage), ("current", numText r.current),
        ("active_power", numText r.active_power),
        ("reactive_power", numText r.reactive_power),
        ("frequency", numText r.frequency),
        ("power_factor", numText r.power_factor),
        ("total_energy_kwh", numText r.total_energy_kwh)] := by
  refine ⟨?_, genReadings_length meter_ids epoch choices energy, fun r => rfl⟩
  unfold write_batch
  cases hg : (genReadings meter_ids epoch energy choices).1 with
  | nil =>
    exfalso
    have hlen := genReadings_length meter_ids epoch choices energy
    rw [hg] at hlen
    exact h (List.length_eq_zero.1 hlen.symm)
  | cons a as => simp [hg]

/-- Closed instance of C8: a one-reading batch is the header row plus one data row. -/
theorem C8_write_batch_rows_witness :
    (write_batch ["MTR-00001"] 0 [0] [⟨0, ⟨230, 5, 9 / 10, 1 / 10, 50⟩⟩]).1 =
      some (fieldNames ::
        ((genReadings ["MTR-00001"] 0 [0] [⟨0, ⟨230, 5, 9 / 10, 1 / 10, 50⟩⟩]).1).map
          serializeReading) :=
  (C8_write_batch_rows ["MTR-00001"] 0 [0] [⟨0, ⟨230, 5, 9 / 10, 1 / 10, 50⟩⟩]
    (List.cons_ne_nil _ _)).1

/-! ### Engine trace lemmas -/

theorem storeKeys_def (st : List (WindowKey × Accumulator)) :
    storeKeys st = st.map Prod.fst := rfl

theorem storeKeys_nil : storeKeys [] = [] := rfl

theorem storeKeys_cons (p : WindowKey × Accumulator)
    (st : List (WindowKey × Accumulator)) :
    storeKeys (p :: st) = p.1 :: storeKeys st := rfl

theorem closedUnder_mono (cfg : EngineConfig) {m m' : Option Int} (h : optLe m m')
    {k : WindowKey} (hc : closedUnder cfg m k = true) : closedUnder cfg m' k = true := by
  cases m with
  | none => simp [closedUnder, watermarkOf] at hc
  | some v =>
    cases m' with
    | none => simp [optLe] at h
    | some v' =>
      simp only [closedUnder, watermarkOf, decide_eq_true_eq] at hc ⊢
      simp only [optLe] at h
      omega

theorem closedUnder_elim {cfg : EngineConfig} {m : Option Int} {k : WindowKey}
    (hc : closedUnder cfg m k = true) :
    ∃ w, watermarkOf cfg m = some w ∧ k.window_end ≤ w := by
  cases m with
  | none => simp [closedUnder, watermarkOf] at hc
  | some v =>
    exact ⟨v - cfg.allowed_lateness, rfl, by
      simpa [closedUnder, watermarkOf] using hc⟩

theorem storeKeys_storeMerge (st : List (WindowKey × Accumulator)) (k : WindowKey)
    (r : MeasurementRecord) (k' : WindowKey) :
    k' ∈ storeKeys (storeMerge st k r) ↔ k' ∈ storeKeys st ∨ k' = k := by
  induction st with
  | nil => simp [storeMerge, storeKeys_cons, storeKeys_nil]
  | cons p rest ih =>
    by_cases hp : p.1 = k
    · simp only [storeMerge]
      rw [if_pos hp]
      simp only [storeKeys_cons, List.mem_cons, hp]
      tauto
    · simp only [storeMerge]
      rw [if_neg hp]
      simp only [storeKeys_cons, List.mem_cons, ih]
      tauto

theorem storeMerge_nodup (st : List (WindowKey × Accumulator)) (k : WindowKey)
    (r : MeasurementRecord) (h : (storeKeys st).Nodup) :
    (storeKeys (storeMerge st k r)).Nodup := by
  induction st with
  | nil => simp [storeMerge, storeKeys_cons, storeKeys_nil]
  | cons p rest ih =>
    rw [storeKeys_cons] at h
    have h1 := List.nodup_cons.1 h
    by_cases hp : p.1 = k
    · simp only [storeMerge, if_pos hp, storeKeys_cons]
      exact List.nodup_cons.2 ⟨hp ▸ h1.1, h1.2⟩
    · simp only [storeMerge, if_neg hp, storeKeys_cons]
      refine List.nodup_cons.2 ⟨?_, ih h1.2⟩
      intro hmem
      rcases (storeKeys_storeMerge rest k r p.1).1 hmem with hm | hm
      · exact h1.1 hm
      · exact hp hm

theorem nodupKeys_entry_eq {st : List (WindowKey × Accumulator)}
    (h : (storeKeys st).Nodup) {k : WindowKey} {a b : Accumulator}
    (ha : (k, a) ∈ st) (hb : (k, b) ∈ st) : a = b := by
  induction st with
  | nil => cases ha
  | cons p rest ih =>
    rw [storeKeys_cons] at h
    have h1 := List.nodup_cons.1 h
    rcases List.mem_cons.1 ha with hpa | ha'
    · cases hpa
      rcases List.mem_cons.1 hb with hpb | hb'
      · cases hpb; rfl
      · exact absurd (List.mem_map_of_mem Prod.fst hb') h1.1
    · rcases List.mem_cons.1 hb with hpb | hb'
      · cases hpb
        exact absurd (List.mem_map_of_mem Prod.fst ha') h1.1
      · exact ih h1.2 ha' hb'

theorem mergeRecord_of_closed (cfg : EngineConfig) (s : EngineState)
    (r : MeasurementRecord)
    (h : closedUnder cfg (observe s.maxSeen r.event_time)
      (assignWindow cfg r.event_time r.meter_id) = true) :
    mergeRecord cfg s r =
      ⟨observe s.maxSeen r.event_time, s.store, s.droppedLate + 1⟩ := by
  simp [mergeRecord, h]

theorem mergeRecord_of_open (cfg : EngineConfig) (s : EngineState)
    (r : MeasurementRecord)
    (h : closedUnder cfg (observe s.maxSeen r.event_time)
      (assignWindow cfg r.event_time r.meter_id) = false) :
    mergeRecord cfg s r =
      ⟨observe s.maxSeen r.event_time,
        storeMerge s.store (assignWindow cfg r.event_time r.meter_id) r,
        s.droppedLate⟩ := by
  simp [mergeRecord, h]

theorem inv_weaken (cfg : EngineConfig) {E E' : List WindowKey} {s : EngineState}
    (hsub : ∀ k ∈ E', k ∈ E) (h : Inv cfg E s) : Inv cfg E' s :=
  ⟨fun k hk => h.1 k (hsub k hk), fun k hk => h.2.1 k (hsub k hk), h.2.2⟩

theorem inv_merge (cfg : EngineConfig) {E : List WindowKey} {s : EngineState}
    (r : MeasurementRecord) (h : Inv cfg E s) : Inv cfg E (mergeRecord cfg s r) := by
  obtain ⟨h1, h2, h3⟩ := h
  have hobs : optLe s.maxSeen (observe s.maxSeen r.event_time) := optLe_observe _ _
  have hle : optLe s.maxSeen (mergeRecord cfg s r).maxSeen := by
    rw [mergeRecord_maxSeen]; exact hobs
  refine ⟨fun k hk => closedUnder_mono cfg hle (h1 k hk), ?_, ?_⟩
  · intro k hk hmem
    by_cases hc : closedUnder cfg (observe s.maxSeen r.event_time)
        (assignWindow cfg r.event_time r.meter_id) = true
    · rw [mergeRecord_of_closed cfg s r hc] at hmem
      exact h2 k hk hmem
    · rw [mergeRecord_of_open cfg s r (Bool.not_eq_true _ ▸ hc)] at hmem
      rcases (storeKeys_storeMerge _ _ _ _).1 hmem with hm | hm
      · exact h2 k hk hm
      · exact hc (hm ▸ closedUnder_mono cfg hobs (h1 k hk))
  · by_cases hc : closedUnder cfg (observe s.maxSeen r.event_time)
        (assignWindow cfg r.event_time r.meter_id) = true
    · rw [mergeRecord_of_closed cfg s r hc]
      exact h3
    · rw [mergeRecord_of_open cfg s r (Bool.not_eq_true _ ▸ hc)]
      exact storeMerge_nodup _ _ _ h3

theorem inv_foldl (cfg : EngineConfig) (batch : List MeasurementRecord) :
    ∀ {s : EngineState} {E : List WindowKey}, Inv cfg E s →
      Inv cfg E (batch.foldl (mergeRecord cfg) s) := by
  induction batch with
  | nil => intro s E h; exact h
  | cons r rest ih =>
    intro s E h
    exact ih (inv_merge cfg r h)

theorem processBatch_out (cfg : EngineConfig) (s : EngineState)
    (batch : List MeasurementRecord) :
    (processBatch cfg s batch).2 =
      ((batch.foldl (mergeRecord cfg) s).store.filter fun p =>
        closedUnder cfg (batch.foldl (mergeRecord cfg) s).maxSeen p.1).map
        (fun p => finalize p.1 p.2) := rfl

theorem processBatch_state (cfg : EngineConfig) (s : EngineState)
    (batch : List MeasurementRecord) :
    (processBatch cfg s batch).1 =
      ⟨(batch.foldl (mergeRecord cfg) s).maxSeen,
        (batch.foldl (mergeRecord cfg) s).store.filter fun p =>
          !closedUnder cfg (batch.foldl (mergeRecord cfg) s).maxSeen p.1,
        (batch.foldl (mergeRecord cfg) s).droppedLate⟩ := rfl

theorem processBatch_outKeys (cfg : EngineConfig) (s : EngineState)
    (batch : List MeasurementRecord) :
    (processBatch cfg s batch).2.map fwKey =
      ((batch.foldl (mergeRecord cfg) s).store.filter fun p =>
        closedUnder cfg (batch.foldl (mergeRecord cfg) s).maxSeen p.1).map
        Prod.fst := by
  rw [processBatch_out, List.map_map]
  rfl

theorem inv_process (cfg : EngineConfig) {E : List WindowKey} {s : EngineState}
    (batch : List MeasurementRecord) (h : Inv cfg E s) :
    Inv cfg (E ++ (processBatch cfg s batch).2.map fwKey) (processBatch cfg s batch).1 ∧
    ((processBatch cfg s batch).2.map fwKey).Nodup ∧
    ∀ k ∈ (processBatch cfg s batch).2.map fwKey,
      closedUnder cfg (processBatch cfg s batch).1.maxSeen k = true ∧ k ∉ E := by
  obtain ⟨h1, h2, h3⟩ := inv_foldl cfg batch h
  rw [processBatch_outKeys, processBatch_state]
  have hOutSub : ∀ k ∈ ((batch.foldl (mergeRecord cfg) s).store.filter fun p =>
      closedUnder cfg (batch.foldl (mergeRecord cfg) s).maxSeen p.1).map Prod.fst,
      k ∈ storeKeys (batch.foldl (mergeRecord cfg) s).store := by
    intro k hk
    obtain ⟨p, hp, rfl⟩ := List.mem_map.1 hk
    exact List.mem_map_of_mem Prod.fst (List.mem_filter.1 hp).1
  have hOutClosed : ∀ k ∈ ((batch.foldl (mergeRecord cfg) s).store.filter fun p =>
      closedUnder cfg (batch.foldl (mergeRecord cfg) s).maxSeen p.1).map Prod.fst,
      closedUnder cfg (batch.foldl (mergeRecord cfg) s).maxSeen k = true := by
    intro k hk
    obtain ⟨p, hp, rfl⟩ := List.mem_map.1 hk
    exact (List.mem_filter.1 hp).2
  have hOutNodup : (((batch.foldl (mergeRecord cfg) s).store.filter fun p =>
      closedUnder cfg (batch.foldl (mergeRecord cfg) s).maxSeen p.1).map Prod.fst).Nodup :=
    List.Nodup.sublist ((List.filter_sublist _).map Prod.fst) h3
  have hRemSub : ∀ k ∈ storeKeys ((batch.foldl (mergeRecord cfg) s).store.filter fun p =>
      !closedUnder cfg (batch.foldl (mergeRecord cfg) s).maxSeen p.1),
      k ∈ storeKeys (batch.foldl (mergeRecord cfg) s).store := by
    intro k hk
    exact List.Sublist.subset ((List.filter_sublist _).map Prod.fst) hk
  have hOutNotRem : ∀ k ∈ ((batch.foldl (mergeRecord cfg) s).store.filter fun p =>
      closedUnder cfg (batch.foldl (mergeRecord cfg) s).maxSeen p.1).map Prod.fst,
      k ∉ storeKeys ((batch.foldl (mergeRecord cfg) s).store.filter fun p =>
        !closedUnder cfg (batch.foldl (mergeRecord cfg) s).maxSeen p.1) := by
    intro k hk hmem
    obtain ⟨p, hp, hpk⟩ := List.mem_map.1 hk
    obtain ⟨q, hq, hqk⟩ := List.mem_map.1 hmem
    have hpin := List.mem_filter.1 hp
    have hqin := List.mem_filter.1 hq
    have hfst : p.1 = q.1 := by rw [hpk, hqk]
    have hsnd : p.2 = q.2 :=
      @nodupKeys_entry_eq _ h3 p.1 p.2 q.2 hpin.1 (by rw [hfst]; exact hqin.1)
    have hpq : p = q := Prod.ext hfst hsnd
    rw [hpq] at hpin
    rw [hpin.2] at hqin
    simp at hqin
  refine ⟨⟨?_, ?_, ?_⟩, hOutNodup, ?_⟩
  · intro k hk
    rcases List.mem_append.1 hk with hkE | hkO
    · exact h1 k hkE
    · exact hOutClosed k hkO
  · intro k hk
    rcases List.mem_append.1 hk with hkE | hkO
    · intro hmem
      exact h2 k hkE (hRemSub k hmem)
    · exact hOutNotRem k hkO
  · exact List.Nodup.sublist ((List.filter_sublist _).map Prod.fst) h3
  · intro k hk
    refine ⟨hOutClosed k hk, ?_⟩
    intro hkE
    exact h2 k hkE (hOutSub k hk)

theorem runEngine_cons (cfg : EngineConfig) (s : EngineState)
    (b : List MeasurementRecord) (bs : List (List MeasurementRecord)) :
    runEngine cfg s (b :: bs) =
      ((runEngine cfg (processBatch cfg s b).1 bs).1,
        (processBatch cfg s b).2 :: (runEngine cfg (processBatch cfg s b).1 bs).2) := rfl

theorem allEmitted_cons (out : List FinalizedWindow) (outs : List (List FinalizedWindow)) :
    allEmitted (out :: outs) = out.map fwKey ++ allEmitted outs := by
  simp [allEmitted]

theorem inv_run (cfg : EngineConfig) (bs : List (List MeasurementRecord)) :
    ∀ {s : EngineState} {E : List WindowKey}, Inv cfg E s →
      Inv cfg E (runEngine cfg s bs).1 := by
  induction bs with
  | nil => intro s E h; exact h
  | cons b rest ih =>
    intro s E h
    show Inv cfg E (runEngine cfg (processBatch cfg s b).1 rest).1
    exact ih (inv_weaken cfg (fun k hk => List.mem_append.2 (Or.inl hk))
      (inv_process cfg b h).1)

theorem run_emitted (cfg : EngineConfig) (bs : List (List MeasurementRecord)) :
    ∀ (s : EngineState) (E : List WindowKey), Inv cfg E s →
      (allEmitted (runEngine cfg s bs).2).Nodup ∧
      ∀ k ∈ allEmitted (runEngine cfg s bs).2, k ∉ E := by
  induction bs with
  | nil =>
    intro s E h
    constructor
    · exact List.nodup_nil
    · intro k hk
      simp [runEngine, allEmitted] at hk
  | cons b rest ih =>
    intro s E h
    obtain ⟨hI, hN, hT⟩ := inv_process cfg b h
    obtain ⟨ihN, ihE⟩ := ih (processBatch cfg s b).1
      (E ++ (processBatch cfg s b).2.map fwKey) hI
    rw [runEngine_cons, allEmitted_cons]
    constructor
    · refine List.Nodup.append hN ihN ?_
      intro a ha hb
      exact (ihE a hb) (List.mem_append.2 (Or.inr ha))
    · intro k hk
      rcases List.mem_append.1 hk with hk1 | hk2
      · exact (hT k hk1).2
      · intro hkE
        exact (ihE k hk2) (List.mem_append.2 (Or.inl hkE))

theorem runEngine_append (cfg : EngineConfig) (l1 l2 : List (List MeasurementRecord)) :
    ∀ s : EngineState, runEngine cfg s (l1 ++ l2) =
      ((runEngine cfg (runEngine cfg s l1).1 l2).1,
        (runEngine cfg s l1).2 ++ (runEngine cfg (runEngine cfg s l1).1 l2).2) := by
  induction l1 with
  | nil => intro s; rfl
  | cons b rest ih =>
    intro s
    simp only [List.cons_append, runEngine_cons, ih]

theorem stateAfter_append_cons (cfg : EngineConfig)
    (pre : List (List MeasurementRecord)) (b : List MeasurementRecord)
    (mid : List (List MeasurementRecord)) :
    stateAfter cfg (pre ++ b :: mid) =
      (runEngine cfg (processBatch cfg (stateAfter cfg pre) b).1 mid).1 := by
  simp only [stateAfter, runEngine_append, runEngine_cons]

theorem inv_initState (cfg : EngineConfig) : Inv cfg [] initState :=
  ⟨fun k hk => absurd hk (List.not_mem_nil k),
    fun k hk => absurd hk (List.not_mem_nil k), List.nodup_nil⟩

/-! ### Claim C1 -/

/-- Claim C1: in one engine lifetime, the keys of all sink writes across the whole
run are pairwise distinct (each (window, key) pair is written at most once), the
run's emissions decompose batch by batch, and every record emitted by a cycle
satisfies `window_end <= watermark` for the watermark holding at that emission. -/
theorem C1_emit_once (cfg : EngineConfig) (batches : List (List MeasurementRecord)) :
    (allEmitted (runEngine cfg initState batches).2).Nodup ∧
    ∀ pre b post, batches = pre ++ b :: post →
      (runEngine cfg initState batches).2 =
        (runEngine cfg initState pre).2 ++
          (processBatch cfg (stateAfter cfg pre) b).2 ::
            (runEngine cfg (processBatch cfg (stateAfter cfg pre) b).1 post).2 ∧
      ∀ f ∈ (processBatch cfg (stateAfter cfg pre) b).2,
        ∃ w, watermarkOf cfg (processBatch cfg (stateAfter cfg pre) b).1.maxSeen =
          some w ∧ f.window_end ≤ w := by
  constructor
  · exact (run_emitted cfg batches initState [] (inv_initState cfg)).1
  · rintro pre b post rfl
    constructor
    · rw [runEngine_append cfg pre (b :: post) initState]
      rfl
    · intro f hf
      rw [processBatch_out] at hf
      obtain ⟨p, hp, rfl⟩ := List.mem_map.1 hf
      have hc := (List.mem_filter.1 hp).2
      obtain ⟨w, hw, hle⟩ := closedUnder_elim hc
      exact ⟨w, hw, hle⟩

/-- Closed instance of C1's per-cycle clause at a concrete one-batch run. -/
theorem C1_emit_once_witness :
    (runEngine ⟨300, 0⟩ initState [[]]).2 =
      (runEngine ⟨300, 0⟩ initState []).2 ++
        (processBatch ⟨300, 0⟩ (stateAfter ⟨300, 0⟩ []) []).2 ::
          (runEngine ⟨300, 0⟩ (processBatch ⟨300, 0⟩ (stateAfter ⟨300, 0⟩ []) []).1 []).2 ∧
    ∀ f ∈ (processBatch ⟨300, 0⟩ (stateAfter ⟨300, 0⟩ []) []).2,
      ∃ w, watermarkOf ⟨300, 0⟩
        (processBatch ⟨300, 0⟩ (stateAfter ⟨300, 0⟩ []) []).1.maxSeen = some w ∧
        f.window_end ≤ w :=
  (C1_emit_once ⟨300, 0⟩ [[]]).2 [] [] [] rfl

/-! ### Claim C7 -/

/-- Claim C7: once a (window, key) has been finalized and evicted by some cycle, at
every later point of the run that window stays closed and absent from the store;
any record assigned to it is dropped — the store is unchanged and the dropped-late
counter increments — and no later cycle ever emits that (window, key) again. -/
theorem C7_late_record_dropped (cfg : EngineConfig)
    (pre : List (List MeasurementRecord)) (b : List MeasurementRecord)
    (mid : List (List MeasurementRecord)) (k : WindowKey)
    (hk : k ∈ (processBatch cfg (stateAfter cfg pre) b).2.map fwKey) :
    closedUnder cfg (stateAfter cfg (pre ++ b :: mid)).maxSeen k = true ∧
    k ∉ storeKeys (stateAfter cfg (pre ++ b :: mid)).store ∧
    (∀ r : MeasurementRecord, assignWindow cfg r.event_time r.meter_id = k →
      (mergeRecord cfg (stateAfter cfg (pre ++ b :: mid)) r).store =
        (stateAfter cfg (pre ++ b :: mid)).store ∧
      (mergeRecord cfg (stateAfter cfg (pre ++ b :: mid)) r).droppedLate =
        (stateAfter cfg (pre ++ b :: mid)).droppedLate + 1) ∧
    ∀ b' : List MeasurementRecord,
      k ∉ (processBatch cfg (stateAfter cfg (pre ++ b :: mid)) b').2.map fwKey := by
  have hPre : Inv cfg [] (stateAfter cfg pre) :=
    inv_run cfg pre (inv_initState cfg)
  have hProc := (inv_process cfg b hPre).1
  have hCycle : Inv cfg [k] (processBatch cfg (stateAfter cfg pre) b).1 := by
    refine inv_weaken cfg ?_ hProc
    intro k' hk'
    rcases List.mem_cons.1 hk' with rfl | h'
    · exact List.mem_append.2 (Or.inr hk)
    · cases h'
  have hMid : Inv cfg [k]
      (runEngine cfg (processBatch cfg (stateAfter cfg pre) b).1 mid).1 :=
    inv_run cfg mid hCycle
  rw [stateAfter_append_cons]
  have hClosed := hMid.1 k (List.mem_singleton_self k)
  refine ⟨hClosed, hMid.2.1 k (List.mem_singleton_self k), ?_, ?_⟩
  · intro r hr
    have hc : closedUnder cfg
        (observe (runEngine cfg (processBatch cfg (stateAfter cfg pre) b).1 mid).1.maxSeen
          r.event_time)
        (assignWindow cfg r.event_time r.meter_id) = true := by
      rw [hr]
      exact closedUnder_mono cfg (optLe_observe _ _) hClosed
    rw [mergeRecord_of_closed cfg _ r hc]
    exact ⟨rfl, rfl⟩
  · intro b' hmem
    have h' := inv_foldl cfg b' hMid
    rw [processBatch_outKeys] at hmem
    obtain ⟨p, hp, rfl⟩ := List.mem_map.1 hmem
    exact h'.2.1 p.1 (List.mem_singleton_self p.1)
      (List.mem_map_of_mem Prod.fst (List.mem_filter.1 hp).1)

/-- Closed instance of C7: the window [0, 300) for device "A", emitted by the first
batch once the watermark reached 400, stays closed and evicted afterwards. -/
theorem C7_late_record_dropped_witness :
    closedUnder ⟨300, 0⟩
      (stateAfter ⟨300, 0⟩
        ([] ++ [⟨"A", 10, 230, 5, 100, 10, 50, 1, 1⟩,
          ⟨"A", 400, 230, 5, 100, 10, 50, 1, 1⟩] :: [])).maxSeen
      ⟨0, 300, "A"⟩ = true ∧
    ⟨0, 300, "A"⟩ ∉ storeKeys
      (stateAfter ⟨300, 0⟩
        ([] ++ [⟨"A", 10, 230, 5, 100, 10, 50, 1, 1⟩,
          ⟨"A", 400, 230, 5, 100, 10, 50, 1, 1⟩] :: [])).store :=
  ⟨(C7_late_record_dropped ⟨300, 0⟩ []
      [⟨"A", 10, 230, 5, 100, 10, 50, 1, 1⟩, ⟨"A", 400, 230, 5, 100, 10, 50, 1, 1⟩]
      [] ⟨0, 300, "A"⟩ (by decide)).1,
    (C7_late_record_dropped ⟨300, 0⟩ []
      [⟨"A", 10, 230, 5, 100, 10, 50, 1, 1⟩, ⟨"A", 400, 230, 5, 100, 10, 50, 1, 1⟩]
      [] ⟨0, 300, "A"⟩ (by decide)).2.1⟩

/-! ### Claim C5 -/

/-- Claim C5: with 5-minute windows and zero allowed lateness, the first cycle
(records for MTR-00001 at 00:00:10, 00:02:00, 00:04:50 with active power 100, 200,
300) emits nothing; the later record at 00:05:01 for another device advances the
watermark to 00:05:01 (past 00:05:00) and the cycle emits the window
[00:00, 00:05) for MTR-00001 with `avg_active_power = 200`, from an accumulator of
count 3. -/
theorem C5_worked_example :
    (runEngine cfg5 initState [exampleBatch1, exampleBatch2]).2 =
      [[], [⟨"MTR-00001", 0, 300, 230, 5, 200, 19 / 20⟩]] ∧
    watermarkOf cfg5 (stateAfter cfg5 [exampleBatch1, exampleBatch2]).maxSeen =
      some 301 ∧
    (storeFind (List.foldl (mergeRecord cfg5) (stateAfter cfg5 [exampleBatch1])
        exampleBatch2).store ⟨0, 300, "MTR-00001"⟩).map Accumulator.count =
      some 3 := by
  refine ⟨?_, ?_, ?_⟩ <;>
    norm_num [cfg5, exampleBatch1, exampleBatch2, exRecord, runEngine, processBatch,
      mergeRecord, observe, assignWindow, closedUnder, watermarkOf, storeMerge,
      Accumulator.merge, Accumulator.empty, finalize, initState, stateAfter,
      storeFind, Int.fdiv]

end SmartMeter
